import Mathlib

/-!
# go-workq client protocol codec, embedded in Lean

A shallow embedding of the Workq client's wire codec (`client.go`,
`error.go`, `job.go` of `iamduo/go-workq`).  The inbound byte stream is
modelled as a `List Char` (one `Char` per byte; every byte the protocol
grammar distinguishes is ASCII).  Each decode primitive is a
prefix-consuming function returning either a classified error or a value
together with the unconsumed tail of the stream, mirroring the Go
`responseParser` reading from a `bufio.Reader` over a closed buffer: end
of the list is end of stream.
-/

namespace Workq

/-- The error taxonomy of the Go client (`error.go` plus the sentinel
errors of `client.go`):
* `netError` — `NewNetError(text)`, wrapping a transport error message;
* `malformed` — the sentinel `ErrMalformed`;
* `payloadMustFollowSize` — the sentinel `ErrPayloadMustFollowSize`;
* `responseError` — `NewResponseError(code, text)`, a server-reported error;
* `numError` — a raw `*strconv.NumError` returned verbatim by
  `parseInspectedJob` when `ParseUint` fails on a `payload-size` value
  (the Go code returns that error unwrapped instead of `ErrMalformed`);
  it carries the offending literal. -/
inductive DecodeErr where
  | netError (text : String)
  | malformed
  | payloadMustFollowSize
  | responseError (code text : String)
  | numError (literal : String)
deriving Repr, DecidableEq

/-- Whether an error is the transport (`NetError`) classification. -/
def DecodeErr.isNet : DecodeErr → Bool
  | .netError _ => true
  | _ => false

/-- Result of a decode step: error, or value plus unconsumed stream tail. -/
abbrev DecRes (α : Type) := Except DecodeErr (α × List Char)

instance {ε α : Type} [DecidableEq ε] [DecidableEq α] :
    DecidableEq (Except ε α) := fun a b =>
  match a, b with
  | .ok x, .ok y =>
    match decEq x y with
    | isTrue h => isTrue (h ▸ rfl)
    | isFalse h => isFalse (fun hh => h (Except.ok.inj hh))
  | .error x, .error y =>
    match decEq x y with
    | isTrue h => isTrue (h ▸ rfl)
    | isFalse h => isFalse (fun hh => h (Except.error.inj hh))
  | .ok _, .error _ => isFalse (fun hh => Except.noConfusion hh)
  | .error _, .ok _ => isFalse (fun hh => Except.noConfusion hh)

/-- The line terminator `crnl = "\r\n"` as characters. -/
def crnlChars : List Char := ['\r', '\n']

/-- `maxDataBlock`: the 1 MiB cap on any data block (`client.go`). -/
def maxDataBlock : Int := 1048576

/-- `payloadKey = "payload "`: the fixed marker prefix of the payload line
inside an inspected-job record (`client.go`). -/
def payloadKeyChars : List Char := ['p', 'a', 'y', 'l', 'o', 'a', 'd', ' ']

/-- Decimal value of a digit string, most significant first
(the accumulation `strconv` performs on the digit bytes). -/
def digitsToNat (ds : List Char) : Nat :=
  ds.foldl (fun a c => a * 10 + (c.toNat - 48)) 0

/-- A non-empty all-digit string parsed to its value; `none` otherwise.
Shared syntax core of `strconv.Atoi` / `ParseInt` / `ParseUint`. -/
def parseDigits (ds : List Char) : Option Nat :=
  if ds ≠ [] ∧ ds.all Char.isDigit then some (digitsToNat ds) else none

/-- `strconv.Atoi` (= `ParseInt(s, 10, 0)` with 64-bit `int`): an optional
sign followed by digits, value within the `int64` range; any syntax or
range violation is `none` (the Go error case). -/
def atoi (s : List Char) : Option Int :=
  match s with
  | '+' :: ds =>
    match parseDigits ds with
    | some n => if n ≤ 2 ^ 63 - 1 then some (n : Int) else none
    | none => none
  | '-' :: ds =>
    match parseDigits ds with
    | some n => if n ≤ 2 ^ 63 then some (-(n : Int)) else none
    | none => none
  | ds =>
    match parseDigits ds with
    | some n => if n ≤ 2 ^ 63 - 1 then some (n : Int) else none
    | none => none

/-- `strconv.ParseUint(s, 10, bits)`: digits only (no sign permitted),
value below `2 ^ bits`. -/
def parseUint (bits : Nat) (s : List Char) : Option Nat :=
  match parseDigits s with
  | some n => if n < 2 ^ bits then some n else none
  | none => none

/-- `strconv.ParseInt(s, 10, bits)`: optional sign and digits, value
within the signed `bits`-bit range. -/
def parseIntBits (bits : Nat) (s : List Char) : Option Int :=
  match s with
  | '+' :: ds =>
    match parseDigits ds with
    | some n => if n ≤ 2 ^ (bits - 1) - 1 then some (n : Int) else none
    | none => none
  | '-' :: ds =>
    match parseDigits ds with
    | some n => if n ≤ 2 ^ (bits - 1) then some (-(n : Int)) else none
    | none => none
  | ds =>
    match parseDigits ds with
    | some n => if n ≤ 2 ^ (bits - 1) - 1 then some (n : Int) else none
    | none => none

/-- Go's conversion `int(u)` of a `uint64` to a 64-bit `int`:
two's-complement wraparound. -/
def uint64ToInt (n : Nat) : Int :=
  if n < 2 ^ 63 then (n : Int) else (n : Int) - 2 ^ 64

/-- `strings.Split(s, sep)` for a one-character separator: splits on every
occurrence, keeping empty fields; `Split("", sep) = [""]`. -/
def splitChar (sep : Char) : List Char → List (List Char)
  | [] => [[]]
  | c :: cs =>
    if c = sep then [] :: splitChar sep cs
    else
      match splitChar sep cs with
      | [] => [[c]]
      | t :: ts => (c :: t) :: ts

/-- `strings.SplitN(s, sep, 2)` for a one-character separator: at most one
split, at the first occurrence. -/
def splitFirst (sep : Char) : List Char → List (List Char)
  | [] => [[]]
  | c :: cs =>
    if c = sep then [[], cs]
    else
      match splitFirst sep cs with
      | [t] => [c :: t]
      | [t, u] => [c :: t, u]
      | _ => [[]]

/-- `bufio.Reader.ReadBytes('\n')`: the shortest prefix ending in `'\n'`
together with the remainder, or `none` when the stream ends first. -/
def breakAfterNl : List Char → Option (List Char × List Char)
  | [] => none
  | c :: cs =>
    if c = '\n' then some ([c], cs)
    else
      match breakAfterNl cs with
      | none => none
      | some (a, b) => some (c :: a, b)

/-- `readLine` (`client.go`): read through the next `'\n'`; stream end
first is a transport error (`NewNetError("EOF")`, the `io.EOF` message);
a raw line shorter than the two-byte terminator, or whose second-to-last
byte is not `'\r'`, is `ErrMalformed`; otherwise the line with the
terminator stripped. -/
def readLine (s : List Char) : DecRes (List Char) :=
  match breakAfterNl s with
  | none => .error (.netError "EOF")
  | some (raw, rest) =>
    if raw.length < 2 then .error .malformed
    else if raw.dropLast.getLast? = some '\r' then
      .ok (raw.dropLast.dropLast, rest)
    else .error .malformed

/-- `readBlock` (`client.go`): a declared size outside `[0, maxDataBlock]`
is `ErrMalformed` before any read; then exactly `size` bytes are read
(`io.ReadAtLeast`; a short stream is `ErrMalformed`), and the next two
bytes must be the terminator or the call is `ErrMalformed`.  Note every
failure here — including a transport-level short read — is classified
`ErrMalformed`, not `NetError`. -/
def readBlock (size : Int) (s : List Char) : DecRes (List Char) :=
  if size < 0 ∨ size > maxDataBlock then .error .malformed
  else
    let n := size.toNat
    if s.length < n then .error .malformed
    else
      let rest := s.drop n
      if rest.take 2 = crnlChars then .ok (s.take n, rest.drop 2)
      else .error .malformed

/-- `errorFromLine` (`client.go`): split the line at the first space; the
code token is everything after the sign byte of the first field, and must
be non-empty; a second field, when present, is the free text and must be
non-empty; returns the error and whether it is a server `ResponseError`. -/
def errorFromLine (line : List Char) : DecodeErr × Bool :=
  match splitFirst ' ' line with
  | [] => (.malformed, false)
  | first :: rest =>
    if first.length ≤ 1 then (.malformed, false)
    else
      let code := String.mk (first.drop 1)
      match rest with
      | [] => (.responseError code "", true)
      | text :: _ =>
        if text.length = 0 then (.malformed, false)
        else (.responseError code (String.mk text), true)

/-- `parseOk` (`client.go`): a line that is exactly `+OK` succeeds; a
line of fewer than 3 bytes, or one not starting with the `-` sign, is
`ErrMalformed`; otherwise the error line is decoded by `errorFromLine`. -/
def parseOk (s : List Char) : DecRes Unit :=
  match readLine s with
  | .error e => .error e
  | .ok (line, rest) =>
    if line.length < 3 then .error .malformed
    else if line.take 3 = ['+', 'O', 'K'] ∧ line.length = 3 then .ok ((), rest)
    else if line.head? ≠ some '-' then .error .malformed
    else .error (errorFromLine line).1

/-- `parseOkWithReply` (`client.go`): a line of at least 5 bytes starting
`+OK` has its bytes from index 4 parsed by `Atoi` as the reply count
(`ErrMalformed` if unparsable); a line not starting `+` or `-` is
`ErrMalformed`; a `-` line is decoded by `errorFromLine`. -/
def parseOkWithReply (s : List Char) : DecRes Int :=
  match readLine s with
  | .error e => .error e
  | .ok (line, rest) =>
    if line.length < 5 then .error .malformed
    else if line.head? = some '+' ∧ (line.drop 1).take 2 = ['O', 'K'] then
      match atoi (line.drop 4) with
      | some count => .ok (count, rest)
      | none => .error .malformed
    else if line.head? ≠ some '-' then .error .malformed
    else .error (errorFromLine line).1

/-- Whether `c` is a lowercase or uppercase hex digit byte. -/
def isHexChar (c : Char) : Bool :=
  c.isDigit ∨ ('a' ≤ c ∧ c ≤ 'f') ∨ ('A' ≤ c ∧ c ≤ 'F')

/-- `uuid.FromString` of the external `satori/go.uuid` dependency,
modelled at the interface boundary per the spec's id invariant: a
syntactically valid 36-character canonical UUID — hex digits with
hyphens at offsets 8, 13, 18 and 23.  (The library additionally accepts
braced/URN/hash serializations; nothing in this protocol's grammar
produces them.) -/
def uuidOk (s : List Char) : Bool :=
  s.length = 36 ∧ s.enum.all fun p =>
    if p.1 = 8 ∨ p.1 = 13 ∨ p.1 = 18 ∨ p.1 = 23 then p.2 = '-'
    else isHexChar p.2

/-- A byte admitted by the name grammar `[a-zA-Z0-9_.-]`
(the `nameRe` regular expression of `client.go`). -/
def isNameChar (c : Char) : Bool :=
  c.isAlphanum ∨ c = '_' ∨ c = '.' ∨ c = '-'

/-- `nameFromString` (`client.go`) as a predicate: length within 1..128
and every byte admitted by `nameRe`. -/
def nameOk (s : List Char) : Bool :=
  0 < s.length ∧ s.length ≤ 128 ∧ s.all isNameChar

/-- Read two ASCII digits off the front of a string.  Helper for the
timestamp validator below. -/
def twoDigits (s : List Char) : Option (Nat × List Char) :=
  match s with
  | a :: b :: r =>
    if a.isDigit ∧ b.isDigit then some ((a.toNat - 48) * 10 + (b.toNat - 48), r)
    else none
  | _ => none

/-- `time.Parse(time.RFC3339, s)` of the external `time` standard
library, modelled at the interface boundary as a syntactic validator of
the spec's "UTC timestamp in a fixed textual format":
`YYYY-MM-DDThh:mm:ss`, optional `.` plus fractional-second digits, then
`Z` or a `±hh:mm` numeric offset, with the numeric field ranges checked
(month 1–12, day 1–31, hour ≤ 23, minute/second ≤ 59; the month-specific
day-count refinement the library also performs is not needed by any
response grammar here). -/
def rfc3339Ok (s : List Char) : Bool :=
  match twoDigits s with
  | none => false
  | some (_, s) =>
  match twoDigits s with
  | none => false
  | some (_, s) =>
  match s with
  | '-' :: s =>
    (match twoDigits s with
     | none => false
     | some (mo, s) =>
     if ¬(1 ≤ mo ∧ mo ≤ 12) then false
     else
     match s with
     | '-' :: s =>
       (match twoDigits s with
        | none => false
        | some (d, s) =>
        if ¬(1 ≤ d ∧ d ≤ 31) then false
        else
        match s with
        | 'T' :: s =>
          (match twoDigits s with
           | none => false
           | some (h, s) =>
           if ¬(h ≤ 23) then false
           else
           match s with
           | ':' :: s =>
             (match twoDigits s with
              | none => false
              | some (mi, s) =>
              if ¬(mi ≤ 59) then false
              else
              match s with
              | ':' :: s =>
                (match twoDigits s with
                 | none => false
                 | some (sec, s) =>
                 if ¬(sec ≤ 59) then false
                 else
                 let tz : List Char → Bool := fun s =>
                   match s with
                   | ['Z'] => true
                   | sign :: s =>
                     if sign = '+' ∨ sign = '-' then
                       match twoDigits s with
                       | none => false
                       | some (oh, s) =>
                       if ¬(oh ≤ 23) then false
                       else
                       match s with
                       | ':' :: s =>
                         (match twoDigits s with
                          | none => false
                          | some (om, s) => om ≤ 59 ∧ s = [])
                       | _ => false
                     else false
                   | _ => false
                 match s with
                 | '.' :: s =>
                   let frac := s.takeWhile Char.isDigit
                   if frac = [] then false else tz (s.dropWhile Char.isDigit)
                 | _ => tz s)
              | _ => false)
           | _ => false)
        | _ => false)
     | _ => false)
  | _ => false

/-- `JobResult` (`job.go`): success flag and result bytes. -/
structure JobResult where
  success : Bool := false
  result : List Char := []
deriving Repr, DecidableEq

/-- `LeasedJob` (`job.go`): id, name, time-to-run, payload bytes. -/
structure LeasedJob where
  id : String := ""
  name : String := ""
  ttr : Int := 0
  payload : List Char := []
deriving Repr, DecidableEq

/-- `InspectedJob` (`job.go`): the embedded background-job fields plus
the inspection counters; `created` holds the accepted timestamp text. -/
structure InspectedJob where
  id : String := ""
  name : String := ""
  ttr : Int := 0
  ttl : Int := 0
  payload : List Char := []
  priority : Int := 0
  maxAttempts : Int := 0
  maxFails : Int := 0
  attempts : Int := 0
  fails : Int := 0
  state : Int := 0
  created : String := ""
deriving Repr, DecidableEq

/-- `readResult` (`client.go`): one line split on spaces into exactly
three fields — the error a failed `readLine` returns is never inspected
(the Go code drops it and splits the nil line, so any read failure here
surfaces as `ErrMalformed`); field 1 must be literally `0` or `1`;
field 2 is the result length (`ParseUint` 64-bit, then Go's `int`
conversion) for one `readBlock`.  Field 0, the record's id, is never
examined. -/
def readResult (s : List Char) : DecRes JobResult :=
  match readLine s with
  | .error _ => .error .malformed
  | .ok (line, rest) =>
    match splitChar ' ' line with
    | [_, f1, f2] =>
      if f1 ≠ ['0'] ∧ f1 ≠ ['1'] then .error .malformed
      else
        match parseUint 64 f2 with
        | none => .error .malformed
        | some len =>
          match readBlock (uint64ToInt len) rest with
          | .error e => .error e
          | .ok (block, rest2) =>
            .ok ({ success := f1 = ['1'], result := block }, rest2)
    | _ => .error .malformed

/-- `readLeasedJob` (`client.go`): one line split on spaces into exactly
four fields `<id> <name> <ttr> <payload-length>` (a failed `readLine` is
likewise dropped and surfaces as `ErrMalformed`); the id must satisfy
`idFromString` (UUID) and the name `nameFromString`, both failing the
record with `ErrMalformed`; the ttr is `ParseInt` 64-bit, the length
`ParseUint` 64-bit feeding one `readBlock`. -/
def readLeasedJob (s : List Char) : DecRes LeasedJob :=
  match readLine s with
  | .error _ => .error .malformed
  | .ok (line, rest) =>
    match splitChar ' ' line with
    | [f0, f1, f2, f3] =>
      if ¬uuidOk f0 then .error .malformed
      else if ¬nameOk f1 then .error .malformed
      else
        match parseIntBits 64 f2 with
        | none => .error .malformed
        | some ttr =>
          match parseUint 64 f3 with
          | none => .error .malformed
          | some len =>
            match readBlock (uint64ToInt len) rest with
            | .error e => .error e
            | .ok (block, rest2) =>
              .ok ({ id := String.mk f0, name := String.mk f1,
                     ttr := ttr, payload := block }, rest2)
    | _ => .error .malformed

/-- Outcome of one `switch` dispatch in the key/value loop of
`parseInspectedJob`: abort with an error, continue with the updated job
(one key consumed), or continue having also consumed the payload line
(the Go `k++` inside the loop body — two keys' worth of the count). -/
inductive KeyStep where
  | fail (e : DecodeErr)
  | cont (j : InspectedJob) (rest : List Char)
  | contSkip (j : InspectedJob) (rest : List Char)
deriving Repr, DecidableEq

/-- The `switch split[0]` body of `parseInspectedJob` (`client.go`) for
one already-split key line; recognized keys update the job under
construction.  The `payload` key is the ordering violation
`ErrPayloadMustFollowSize`.  The `payload-size` key parses its value
(`ParseUint` 64-bit, whose raw error is returned verbatim on failure),
requires the next 8 raw bytes to be the `payload ` marker, reads one
block of the declared size, and signals the extra loop-index advance via
`contSkip`. -/
def handleKeyLine (j : InspectedJob) (key value rest : List Char) : KeyStep :=
  if key = "name".data then
    .cont { j with name := String.mk value } rest
  else if key = "ttr".data then
    match parseUint 32 value with
    | none => .fail .malformed
    | some v => .cont { j with ttr := (v : Int) } rest
  else if key = "ttl".data then
    match parseUint 64 value with
    | none => .fail .malformed
    | some v => .cont { j with ttl := (v : Int) } rest
  else if key = "payload".data then .fail .payloadMustFollowSize
  else if key = "payload-size".data then
    match parseUint 64 value with
    | none => .fail (.numError (String.mk value))
    | some size =>
      if rest.take 8 ≠ payloadKeyChars then .fail .payloadMustFollowSize
      else
        match readBlock (uint64ToInt size) (rest.drop 8) with
        | .error e => .fail e
        | .ok (block, rest2) => .contSkip { j with payload := block } rest2
  else if key = "max-attempts".data then
    match parseUint 8 value with
    | none => .fail .malformed
    | some v => .cont { j with maxAttempts := (v : Int) } rest
  else if key = "attempts".data then
    match parseUint 8 value with
    | none => .fail .malformed
    | some v => .cont { j with attempts := (v : Int) } rest
  else if key = "max-fails".data then
    match parseUint 8 value with
    | none => .fail .malformed
    | some v => .cont { j with maxFails := (v : Int) } rest
  else if key = "fails".data then
    match parseUint 8 value with
    | none => .fail .malformed
    | some v => .cont { j with fails := (v : Int) } rest
  else if key = "priority".data then
    match parseIntBits 32 value with
    | none => .fail .malformed
    | some v => .cont { j with priority := v } rest
  else if key = "state".data then
    match parseUint 8 value with
    | none => .fail .malformed
    | some v => .cont { j with state := (v : Int) } rest
  else if key = "created".data then
    if rfc3339Ok value then
      .cont { j with created := String.mk value } rest
    else .fail .malformed
  else .fail .malformed

/-- The key/value loop of `parseInspectedJob` (`client.go`), indexed by
the remaining iteration budget (`keyCount - k`).  Each iteration reads
one line, splits it into exactly two fields, and dispatches on the key
via `handleKeyLine`; a `contSkip` outcome (the `payload-size`/`payload`
pair) advances the loop index an extra step, so the budget drops by two
— and a pair beginning on the last counted key ends the loop. -/
def parseKeys : Nat → InspectedJob → List Char → DecRes InspectedJob
  | 0, j, s => .ok (j, s)
  | n + 1, j, s =>
    match readLine s with
    | .error _ => .error .malformed
    | .ok (line, rest) =>
      match splitChar ' ' line with
      | [key, value] =>
        match handleKeyLine j key value rest with
        | .fail e => .error e
        | .cont j2 rest2 => parseKeys n j2 rest2
        | .contSkip j2 rest2 =>
          match n with
          | 0 => .ok (j2, rest2)
          | m + 1 => parseKeys m j2 rest2
      | _ => .error .malformed

/-- `parseInspectedJob` (`client.go`): a header line of exactly two
fields `<id> <key-count>` — here a failed `readLine` is checked and
mapped to `ErrMalformed` — with the id validated by `idFromString`
(UUID) and the key count by `Atoi` (a negative count runs the loop zero
times), followed by the key/value loop. -/
def parseInspectedJob (s : List Char) : DecRes InspectedJob :=
  match readLine s with
  | .error _ => .error .malformed
  | .ok (line, rest) =>
    match splitChar ' ' line with
    | [f0, f1] =>
      if ¬uuidOk f0 then .error .malformed
      else
        match atoi f1 with
        | none => .error .malformed
        | some keyCount =>
          parseKeys keyCount.toNat { id := String.mk f0 } rest
    | _ => .error .malformed

/-- The record loop of `readInspectedJobs`: `replyCount` iterations of
`parseInspectedJob`, accumulating jobs in order. -/
def readJobsLoop : Nat → List Char → DecRes (List InspectedJob)
  | 0, s => .ok ([], s)
  | n + 1, s =>
    match parseInspectedJob s with
    | .error e => .error e
    | .ok (j, rest) =>
      match readJobsLoop n rest with
      | .error e => .error e
      | .ok (js, rest2) => .ok (j :: js, rest2)

/-- `readInspectedJobs` (`client.go`): run the record loop `replyCount`
times (a negative count runs zero times and then fails the
`len(jobs) != replyCount` check); after the declared records, any
further readable byte on the stream is `ErrMalformed` (the one-byte
`io.ReadAtLeast` probe succeeding is the failure). -/
def readInspectedJobs (replyCount : Int) (s : List Char) :
    DecRes (List InspectedJob) :=
  match readJobsLoop replyCount.toNat s with
  | .error e => .error e
  | .ok (jobs, rest) =>
    if (jobs.length : Int) ≠ replyCount then .error .malformed
    else if rest ≠ [] then .error .malformed
    else .ok (jobs, rest)

/-- Response pipeline of `Client.Run` (`client.go`): reply-count line,
then the count must equal 1 before `readResult` touches the stream. -/
def runResponse (s : List Char) : DecRes JobResult :=
  match parseOkWithReply s with
  | .error e => .error e
  | .ok (count, rest) =>
    if count ≠ 1 then .error .malformed else readResult rest

/-- Response pipeline of `Client.Result` (`client.go`): identical shape
to `Client.Run`'s — reply-count line, count must equal 1, one result
record. -/
def resultResponse (s : List Char) : DecRes JobResult :=
  match parseOkWithReply s with
  | .error e => .error e
  | .ok (count, rest) =>
    if count ≠ 1 then .error .malformed else readResult rest

/-- Response pipeline of `Client.Lease` (`client.go`): reply-count line,
count must equal 1, one leased-job record. -/
def leaseResponse (s : List Char) : DecRes LeasedJob :=
  match parseOkWithReply s with
  | .error e => .error e
  | .ok (count, rest) =>
    if count ≠ 1 then .error .malformed else readLeasedJob rest

/-- Response pipeline of `Client.InspectJobs` (`client.go`): reply-count
line, then `readInspectedJobs` with the declared count. -/
def inspectJobsResponse (s : List Char) : DecRes (List InspectedJob) :=
  match parseOkWithReply s with
  | .error e => .error e
  | .ok (count, rest) => readInspectedJobs count rest

/-- `BgJob` (`job.go`): the background-job specification `Client.Add`
encodes.  The payload is carried as a byte string. -/
structure BgJob where
  id : String := ""
  name : String := ""
  ttr : Int := 0
  ttl : Int := 0
  payload : String := ""
  priority : Int := 0
  maxAttempts : Int := 0
  maxFails : Int := 0
deriving Repr, DecidableEq

/-- The optional flags `Client.Add` appends (`client.go`): one
`-name=value` string per non-zero field, in the fixed order priority,
max-attempts, max-fails. -/
def addFlags (j : BgJob) : List String :=
  (if j.priority ≠ 0 then ["-priority=" ++ toString j.priority] else []) ++
  (if j.maxAttempts ≠ 0 then ["-max-attempts=" ++ toString j.maxAttempts] else []) ++
  (if j.maxFails ≠ 0 then ["-max-fails=" ++ toString j.maxFails] else [])

/-- The exact bytes `Client.Add` writes (`client.go`): the `Sprintf`
`"add %s %s %d %d %d%s\r\n%s\r\n"` over id, name, ttr, ttl, payload
length, and the space-joined flags preceded by a single pad space only
when at least one flag is present. -/
def addRequest (j : BgJob) : String :=
  let flags := addFlags j
  let flagsPad := if flags.length > 0 then " " else ""
  "add " ++ j.id ++ " " ++ j.name ++ " " ++ toString j.ttr ++ " " ++
    toString j.ttl ++ " " ++ toString j.payload.length ++
    (flagsPad ++ String.intercalate " " flags) ++ "\r\n" ++ j.payload ++ "\r\n"

/-! ## Framing lemmas for the decode primitives -/

theorem splitChar_ne_nil (sep : Char) (l : List Char) :
    splitChar sep l ≠ [] := by
  induction l with
  | nil => simp [splitChar]
  | cons c cs ih =>
    simp only [splitChar]
    split
    · simp
    · cases h : splitChar sep cs with
      | nil => simp
      | cons t ts => simp

theorem splitChar_no_sep (sep : Char) (l : List Char)
    (h : ∀ c ∈ l, c ≠ sep) : splitChar sep l = [l] := by
  induction l with
  | nil => rfl
  | cons c cs ih =>
    have hc : c ≠ sep := h c (List.mem_cons_self c cs)
    have ihcs := ih (fun x hx => h x (List.mem_cons_of_mem c hx))
    simp [splitChar, hc, ihcs]

theorem splitChar_append (sep : Char) (a b : List Char)
    (h : ∀ c ∈ a, c ≠ sep) :
    splitChar sep (a ++ sep :: b) = a :: splitChar sep b := by
  induction a with
  | nil => simp [splitChar]
  | cons c cs ih =>
    have hc : c ≠ sep := h c (List.mem_cons_self c cs)
    have ihcs := ih (fun x hx => h x (List.mem_cons_of_mem c hx))
    rw [List.cons_append]
    simp [splitChar, hc, ihcs]

theorem splitFirst_no_sep (sep : Char) (l : List Char)
    (h : ∀ c ∈ l, c ≠ sep) : splitFirst sep l = [l] := by
  induction l with
  | nil => rfl
  | cons c cs ih =>
    have hc : c ≠ sep := h c (List.mem_cons_self c cs)
    have ihcs := ih (fun x hx => h x (List.mem_cons_of_mem c hx))
    simp [splitFirst, hc, ihcs]

theorem splitFirst_append (sep : Char) (a b : List Char)
    (h : ∀ c ∈ a, c ≠ sep) :
    splitFirst sep (a ++ sep :: b) = [a, b] := by
  induction a with
  | nil => simp [splitFirst]
  | cons c cs ih =>
    have hc : c ≠ sep := h c (List.mem_cons_self c cs)
    have ihcs := ih (fun x hx => h x (List.mem_cons_of_mem c hx))
    rw [List.cons_append]
    simp [splitFirst, hc, ihcs]

theorem breakAfterNl_no_nl (s : List Char) (h : '\n' ∉ s) :
    breakAfterNl s = none := by
  induction s with
  | nil => rfl
  | cons c cs ih =>
    have hc : c ≠ '\n' := fun he => h (he ▸ List.mem_cons_self c cs)
    have ihcs := ih (fun hx => h (List.mem_cons_of_mem c hx))
    simp [breakAfterNl, hc, ihcs]

theorem breakAfterNl_append (a b : List Char) (h : '\n' ∉ a) :
    breakAfterNl (a ++ '\n' :: b) = some (a ++ ['\n'], b) := by
  induction a with
  | nil => simp [breakAfterNl]
  | cons c cs ih =>
    have hc : c ≠ '\n' := fun he => h (he ▸ List.mem_cons_self c cs)
    have ihcs := ih (fun hx => h (List.mem_cons_of_mem c hx))
    simp [breakAfterNl, hc, ihcs]

/-- A stream with no `'\n'` makes `readLine` report the transport error
(`io.EOF` surfaced as `NewNetError("EOF")`). -/
theorem readLine_no_nl (s : List Char) (h : '\n' ∉ s) :
    readLine s = .error (.netError "EOF") := by
  simp [readLine, breakAfterNl_no_nl s h]

/-- `readLine` on a properly terminated line consumes exactly the line
plus its terminator. -/
theorem readLine_frame (line rest : List Char) (h : '\n' ∉ line) :
    readLine (line ++ '\r' :: '\n' :: rest) = .ok (line, rest) := by
  have hb : breakAfterNl (line ++ '\r' :: '\n' :: rest)
      = some ((line ++ ['\r']) ++ ['\n'], rest) := by
    have hnr : '\n' ∉ line ++ ['\r'] := by
      intro hx
      rcases List.mem_append.mp hx with h1 | h1
      · exact h h1
      · simp at h1
    simpa using breakAfterNl_append (line ++ ['\r']) rest hnr
  simp only [readLine, hb]
  have hlen : ¬((line ++ ['\r']) ++ ['\n']).length < 2 := by
    simp
  have hlast : ((line ++ ['\r']) ++ ['\n']).dropLast.getLast? = some '\r' := by
    rw [List.dropLast_concat, List.getLast?_concat]
  rw [if_neg hlen, if_pos hlast, List.dropLast_concat, List.dropLast_concat]

/-- An in-range `readBlock` over a stream shorter than the declared size
fails with the malformed error. -/
theorem readBlock_short (n : Int) (s : List Char) (h0 : 0 ≤ n)
    (h1 : n ≤ maxDataBlock) (hs : s.length < n.toNat) :
    readBlock n s = .error .malformed := by
  simp only [readBlock]
  rw [if_neg, if_pos hs]
  push_neg
  exact ⟨h0, h1⟩

/-- An in-range `readBlock` over exactly the declared bytes plus the
terminator succeeds, returning the block and the tail. -/
theorem readBlock_exact (n : Int) (b rest : List Char) (h0 : 0 ≤ n)
    (h1 : n ≤ maxDataBlock) (hb : b.length = n.toNat) :
    readBlock n (b ++ '\r' :: '\n' :: rest) = .ok (b, rest) := by
  simp only [readBlock]
  rw [if_neg, if_neg]
  · rw [← hb, List.drop_left, List.take_left]
    simp [crnlChars]
  · simp only [List.length_append, List.length_cons, not_lt]
    omega
  · push_neg
    exact ⟨h0, h1⟩

theorem parseDigits_some_digits {s : List Char} {n : Nat}
    (h : parseDigits s = some n) : s ≠ [] ∧ s.all Char.isDigit := by
  by_cases hc : s ≠ [] ∧ s.all Char.isDigit = true
  · exact hc
  · rw [parseDigits, if_neg hc] at h
    cases h

/-- A string `Atoi` accepts contains no `'\n'` byte (it is a sign byte
followed by digits), and is non-empty. -/
theorem atoi_some_shape {s : List Char} {k : Int} (h : atoi s = some k) :
    s ≠ [] ∧ '\n' ∉ s ∧ ' ' ∉ s := by
  have digitsNo : ∀ (ds : List Char), ds.all Char.isDigit →
      '\n' ∉ ds ∧ ' ' ∉ ds := by
    intro ds hds
    constructor
    · intro hx
      have := List.all_eq_true.mp hds _ hx
      simp [Char.isDigit] at this
    · intro hx
      have := List.all_eq_true.mp hds _ hx
      simp [Char.isDigit] at this
  unfold atoi at h
  split at h
  · rename_i ds
    cases hp : parseDigits ds with
    | none => rw [hp] at h; simp at h
    | some m =>
      obtain ⟨-, hall⟩ := parseDigits_some_digits hp
      obtain ⟨hn, hsp⟩ := digitsNo ds hall
      exact ⟨by simp, by simp [hn], by simp [hsp]⟩
  · rename_i ds
    cases hp : parseDigits ds with
    | none => rw [hp] at h; simp at h
    | some m =>
      obtain ⟨-, hall⟩ := parseDigits_some_digits hp
      obtain ⟨hn, hsp⟩ := digitsNo ds hall
      exact ⟨by simp, by simp [hn], by simp [hsp]⟩
  · cases hp : parseDigits s with
    | none => rw [hp] at h; simp at h
    | some m =>
      obtain ⟨hne, hall⟩ := parseDigits_some_digits hp
      obtain ⟨hn, hsp⟩ := digitsNo s hall
      exact ⟨hne, hn, hsp⟩

/-- `parseOkWithReply` on a well-formed `+OK <count>` line yields exactly
the `Atoi` value of the count bytes, consuming exactly the line. -/
theorem parseOkWithReply_frame (num rest : List Char) (k : Int)
    (hk : atoi num = some k) :
    parseOkWithReply (('+' :: 'O' :: 'K' :: ' ' :: num) ++ ('\r' :: '\n' :: rest))
      = .ok (k, rest) := by
  obtain ⟨hne, hnl, -⟩ := atoi_some_shape hk
  have hline : '\n' ∉ ('+' :: 'O' :: 'K' :: ' ' :: num) := by
    simp [hnl]
  have hrd := readLine_frame ('+' :: 'O' :: 'K' :: ' ' :: num) rest hline
  simp only [parseOkWithReply, hrd]
  have hlen : ¬('+' :: 'O' :: 'K' :: ' ' :: num).length < 5 := by
    have := List.length_pos.mpr hne
    simp only [List.length_cons]
    omega
  rw [if_neg hlen, if_pos ⟨rfl, rfl⟩]
  have hdrop : ('+' :: 'O' :: 'K' :: ' ' :: num).drop 4 = num := rfl
  rw [hdrop, hk]

/-! ## Claim theorems -/

/-- C10: for the Run, Result, and Lease pipelines, a reply-count line
that parses successfully to any count different from 1 makes the call
return the generic malformed-response error, for every possible
continuation of the stream (so no structured record bytes are read). -/
theorem replyCount_guard (num rest : List Char) (k : Int)
    (hk : atoi num = some k) (hne : k ≠ 1) :
    runResponse (('+' :: 'O' :: 'K' :: ' ' :: num) ++ ('\r' :: '\n' :: rest))
        = .error .malformed ∧
    resultResponse (('+' :: 'O' :: 'K' :: ' ' :: num) ++ ('\r' :: '\n' :: rest))
        = .error .malformed ∧
    leaseResponse (('+' :: 'O' :: 'K' :: ' ' :: num) ++ ('\r' :: '\n' :: rest))
        = .error .malformed := by
  have hp := parseOkWithReply_frame num rest k hk
  simp only [List.cons_append] at hp
  refine ⟨?_, ?_, ?_⟩ <;>
    simp [runResponse, resultResponse, leaseResponse, hp, hne]

/-- Witness for C10 at count 2 over an empty continuation. -/
theorem replyCount_guard_witness :
    atoi ['2'] = some 2 ∧
    runResponse (('+' :: 'O' :: 'K' :: ' ' :: ['2']) ++ ('\r' :: '\n' :: []))
      = .error .malformed := by
  refine ⟨by decide, ?_⟩
  exact (replyCount_guard ['2'] [] 2 (by decide) (by decide)).1

/-- C7: a declared block length below 0 or above 1 MiB is rejected with
the malformed error identically for every stream (nothing is read), and
every length within `[0, 1048576]` proceeds to the read: with the
declared bytes and terminator present the block is returned. -/
theorem readBlock_bounds (n : Int) (s : List Char) :
    ((n < 0 ∨ n > maxDataBlock) → readBlock n s = .error .malformed) ∧
    (0 ≤ n → n ≤ maxDataBlock → ∀ b rest, b.length = n.toNat →
      readBlock n (b ++ ('\r' :: '\n' :: rest)) = .ok (b, rest)) := by
  constructor
  · intro h
    rw [readBlock, if_pos h]
  · intro h0 h1 b rest hb
    exact readBlock_exact n b rest h0 h1 hb

/-- Witness for C7: length 2000000 is rejected on a 3-byte stream;
length 1 reads through. -/
theorem readBlock_bounds_witness :
    ((2000000 : Int) > maxDataBlock) ∧
    readBlock 2000000 ['a', 'b', 'c'] = .error .malformed ∧
    readBlock 1 (['a'] ++ ('\r' :: '\n' :: [])) = .ok (['a'], []) := by
  refine ⟨by decide, ?_, ?_⟩
  · exact (readBlock_bounds 2000000 ['a', 'b', 'c']).1 (Or.inr (by decide))
  · exact (readBlock_bounds 1 []).2 (by decide) (by decide) ['a'] [] (by decide)

/-- C4 counterexample: a stream closed before any block data arrives — a
transport-level read failure — makes the read-block primitive return the
generic malformed error, not the transport (`NetError`) classification
the claim asserts for every decode primitive; the read-line primitive,
by contrast, does return the transport error on the same condition. -/
theorem readBlock_transport_misclassified :
    readBlock 1 [] = .error DecodeErr.malformed ∧
    DecodeErr.isNet DecodeErr.malformed = false ∧
    readLine [] = .error (DecodeErr.netError "EOF") := by
  refine ⟨rfl, rfl, rfl⟩

/-- C4 amended: transport-level read failures are surfaced as the
transport error type by the read-line primitive, but the read-block
primitive classifies all of its failures — including a stream that ends
before the declared bytes arrive — as the malformed-response error. -/
theorem decoder_error_classification (s : List Char) (n : Int) :
    ('\n' ∉ s → readLine s = .error (.netError "EOF")) ∧
    (0 ≤ n → n ≤ maxDataBlock → s.length < n.toNat →
      readBlock n s = .error .malformed) :=
  ⟨readLine_no_nl s, readBlock_short n s⟩

/-- Witness for amended C4: a terminator-less stream and a short block. -/
theorem decoder_error_classification_witness :
    readLine ['a', 'b'] = .error (.netError "EOF") ∧
    readBlock 5 ['a', 'b'] = .error .malformed := by
  refine ⟨?_, ?_⟩
  · exact (decoder_error_classification ['a', 'b'] 5).1 (by decide)
  · exact (decoder_error_classification ['a', 'b'] 5).2 (by decide)
      (by decide) (by decide)

/-- C2 (code bug): the three-field leased-job record
`<id> <name> <length>` that the function's own documentation comment and
`TestLease` specify — the exact stream `TestLease` feeds — is rejected
with `ErrMalformed`, because the code demands four space-separated
fields `<id> <name> <ttr> <length>`; the four-field variant decodes. -/
theorem lease_record_field_count :
    leaseResponse ("+OK 1\r\n6ba7b810-9dad-11d1-80b4-00c04fd430c4 j1 1\r\na\r\n".data)
      = .error DecodeErr.malformed ∧
    leaseResponse ("+OK 1\r\n6ba7b810-9dad-11d1-80b4-00c04fd430c4 j1 5 1\r\na\r\n".data)
      = .ok ({ id := "6ba7b810-9dad-11d1-80b4-00c04fd430c4", name := "j1",
               ttr := 5, payload := ['a'] }, []) := by
  refine ⟨rfl, rfl⟩

/-- C8: `Add` writes exactly the scenario's bytes for the no-flag job
and succeeds on the `+OK` acknowledgement; the optional flags appear in
the fixed order priority, max-attempts, max-fails, each omitted when
zero, joined by single spaces with exactly one pad space before the
first flag and none when no flag is present (the `TestAddOptionalFlags`
vectors). -/
theorem add_encoding :
    addRequest { id := "6ba7b810-9dad-11d1-80b4-00c04fd430c4", name := "j1",
                 ttr := 60, ttl := 60000, payload := "a" }
      = "add 6ba7b810-9dad-11d1-80b4-00c04fd430c4 j1 60 60000 1\r\na\r\n" ∧
    parseOk "+OK\r\n".data = .ok ((), []) ∧
    addRequest { id := "6ba7b810-9dad-11d1-80b4-00c04fd430c4", name := "j1",
                 ttr := 1, ttl := 2, payload := "", priority := 100 }
      = "add 6ba7b810-9dad-11d1-80b4-00c04fd430c4 j1 1 2 0 -priority=100\r\n\r\n" ∧
    addRequest { id := "6ba7b810-9dad-11d1-80b4-00c04fd430c4", name := "j1",
                 ttr := 1, ttl := 2, payload := "", maxAttempts := 3 }
      = "add 6ba7b810-9dad-11d1-80b4-00c04fd430c4 j1 1 2 0 -max-attempts=3\r\n\r\n" ∧
    addRequest { id := "6ba7b810-9dad-11d1-80b4-00c04fd430c4", name := "j1",
                 ttr := 1, ttl := 2, payload := "", maxFails := 3 }
      = "add 6ba7b810-9dad-11d1-80b4-00c04fd430c4 j1 1 2 0 -max-fails=3\r\n\r\n" ∧
    addRequest { id := "6ba7b810-9dad-11d1-80b4-00c04fd430c4", name := "j1",
                 ttr := 1, ttl := 2, payload := "", priority := 1,
                 maxAttempts := 3, maxFails := 1 }
      = "add 6ba7b810-9dad-11d1-80b4-00c04fd430c4 j1 1 2 0 -priority=1 -max-attempts=3 -max-fails=1\r\n\r\n" := by
  refine ⟨rfl, rfl, rfl, rfl, rfl, rfl⟩

theorem not_mem_imp_ne {x : Char} {l : List Char} (h : x ∉ l) :
    ∀ c ∈ l, c ≠ x := fun _ hc he => h (he ▸ hc)

/-- C1 counterexample: two of the four places the claim names perform no
validation at all.  A job-result record whose id field is not remotely a
UUID decodes successfully (the id is never examined), and an
inspected-job `name` value outside the name grammar is accepted and
stored. -/
theorem server_field_validation_counterexample :
    resultResponse ("+OK 1\r\nnot-a-uuid 1 1\r\na\r\n".data)
      = .ok ({ success := true, result := ['a'] }, []) ∧
    uuidOk "not-a-uuid".data = false ∧
    parseInspectedJob ("6ba7b810-9dad-11d1-80b4-00c04fd430c4 1\r\nname *\r\n".data)
      = .ok ({ id := "6ba7b810-9dad-11d1-80b4-00c04fd430c4", name := "*" }, []) ∧
    nameOk "*".data = false := by
  refine ⟨rfl, rfl, by decide, rfl⟩

/-- C1 amended: decode-time id/name validation happens exactly where the
code calls the validators — the leased-job id and name and the
inspected-job header id each fail the record when invalid; the
job-result id and the inspected-job `name` value are not validated
(shown by the counterexample). -/
theorem server_field_validation_amended
    (f0 f1 f2 f3 rest : List Char)
    (s0 : ' ' ∉ f0) (n0 : '\n' ∉ f0) (s1 : ' ' ∉ f1) (n1 : '\n' ∉ f1)
    (s2 : ' ' ∉ f2) (n2 : '\n' ∉ f2) (s3 : ' ' ∉ f3) (n3 : '\n' ∉ f3) :
    (uuidOk f0 = false →
      readLeasedJob ((f0 ++ ' ' :: (f1 ++ ' ' :: (f2 ++ ' ' :: f3)))
          ++ ('\r' :: '\n' :: rest)) = .error .malformed) ∧
    (uuidOk f0 = true → nameOk f1 = false →
      readLeasedJob ((f0 ++ ' ' :: (f1 ++ ' ' :: (f2 ++ ' ' :: f3)))
          ++ ('\r' :: '\n' :: rest)) = .error .malformed) ∧
    (uuidOk f0 = false →
      parseInspectedJob ((f0 ++ ' ' :: f1) ++ ('\r' :: '\n' :: rest))
        = .error .malformed) := by
  have hnl4 : '\n' ∉ (f0 ++ ' ' :: (f1 ++ ' ' :: (f2 ++ ' ' :: f3))) := by
    simp [n0, n1, n2, n3]
  have hrd4 := readLine_frame (f0 ++ ' ' :: (f1 ++ ' ' :: (f2 ++ ' ' :: f3)))
    rest hnl4
  have hsplit4 : splitChar ' ' (f0 ++ ' ' :: (f1 ++ ' ' :: (f2 ++ ' ' :: f3)))
      = [f0, f1, f2, f3] := by
    rw [splitChar_append ' ' f0 _ (not_mem_imp_ne s0),
      splitChar_append ' ' f1 _ (not_mem_imp_ne s1),
      splitChar_append ' ' f2 _ (not_mem_imp_ne s2),
      splitChar_no_sep ' ' f3 (not_mem_imp_ne s3)]
  have hnl2 : '\n' ∉ (f0 ++ ' ' :: f1) := by
    simp [n0, n1]
  have hrd2 := readLine_frame (f0 ++ ' ' :: f1) rest hnl2
  have hsplit2 : splitChar ' ' (f0 ++ ' ' :: f1) = [f0, f1] := by
    rw [splitChar_append ' ' f0 _ (not_mem_imp_ne s0),
      splitChar_no_sep ' ' f1 (not_mem_imp_ne s1)]
  refine ⟨?_, ?_, ?_⟩
  · intro hu
    unfold readLeasedJob
    rw [hrd4]
    simp [hsplit4, hu]
  · intro hu hn
    unfold readLeasedJob
    rw [hrd4]
    simp [hsplit4, hu, hn]
  · intro hu
    unfold parseInspectedJob
    rw [hrd2]
    simp [hsplit2, hu]

/-- Witness for amended C1 at the concrete invalid field `*`. -/
theorem server_field_validation_amended_witness :
    readLeasedJob (("*".data ++ ' ' :: ("j1".data ++ ' ' :: ("5".data ++ ' ' :: "1".data)))
        ++ ('\r' :: '\n' :: [])) = .error .malformed ∧
    readLeasedJob (("6ba7b810-9dad-11d1-80b4-00c04fd430c4".data
        ++ ' ' :: ("*".data ++ ' ' :: ("5".data ++ ' ' :: "1".data)))
        ++ ('\r' :: '\n' :: [])) = .error .malformed ∧
    parseInspectedJob (("*".data ++ ' ' :: "1".data) ++ ('\r' :: '\n' :: []))
      = .error .malformed := by
  refine ⟨?_, ?_, ?_⟩
  · exact (server_field_validation_amended "*".data "j1".data "5".data "1".data []
      (by decide) (by decide) (by decide) (by decide) (by decide) (by decide)
      (by decide) (by decide)).1 (by decide)
  · exact (server_field_validation_amended "6ba7b810-9dad-11d1-80b4-00c04fd430c4".data
      "*".data "5".data "1".data []
      (by decide) (by decide) (by decide) (by decide) (by decide) (by decide)
      (by decide) (by decide)).2.1 (by decide) (by decide)
  · exact (server_field_validation_amended "*".data "1".data "5".data "1".data []
      (by decide) (by decide) (by decide) (by decide) (by decide) (by decide)
      (by decide) (by decide)).2.2 (by decide)

/-- C3 counterexample: a trailing byte after the declared record is a
decode failure only for InspectJobs.  The Result pipeline decodes the
same well-formed single record and returns success with the trailing
bytes simply left unconsumed, contradicting zero tolerance "for all four
counted-response commands". -/
theorem trailing_bytes_counterexample :
    resultResponse ("+OK 1\r\n6ba7b810-9dad-11d1-80b4-00c04fd430c4 1 1\r\na\r\nXX".data)
      = .ok ({ success := true, result := ['a'] }, ['X', 'X']) ∧
    inspectJobsResponse ("+OK 0\r\nX".data) = .error .malformed := by
  refine ⟨rfl, rfl⟩

/-- C3 amended: zero tolerance for trailing bytes holds for the
InspectJobs pipeline — its success always leaves an empty stream — while
the Run, Result, and Lease pipelines stop after their single record and
return success with any trailing bytes left unconsumed. -/
theorem trailing_bytes_amended (k : Int) (s : List Char)
    (jobs : List InspectedJob) (rest : List Char) (tail : List Char) :
    (readInspectedJobs k s = .ok (jobs, rest) → rest = []) ∧
    runResponse ("+OK 1\r\n6ba7b810-9dad-11d1-80b4-00c04fd430c4 1 1\r\na\r\n".data ++ tail)
      = .ok ({ success := true, result := ['a'] }, tail) ∧
    resultResponse ("+OK 1\r\n6ba7b810-9dad-11d1-80b4-00c04fd430c4 1 1\r\na\r\n".data ++ tail)
      = .ok ({ success := true, result := ['a'] }, tail) ∧
    leaseResponse ("+OK 1\r\n6ba7b810-9dad-11d1-80b4-00c04fd430c4 j1 5 1\r\na\r\n".data ++ tail)
      = .ok ({ id := "6ba7b810-9dad-11d1-80b4-00c04fd430c4", name := "j1",
               ttr := 5, payload := ['a'] }, tail) := by
  refine ⟨?_, rfl, rfl, rfl⟩
  intro h
  unfold readInspectedJobs at h
  split at h
  · cases h
  · split at h
    · cases h
    · split at h
      · cases h
      · rename_i hrest
        cases h
        exact not_ne_iff.mp hrest

/-- Witness for amended C3: the empty inspect response and a one-byte
trailing tail on the other pipelines. -/
theorem trailing_bytes_amended_witness :
    ([] : List Char) = [] ∧
    runResponse ("+OK 1\r\n6ba7b810-9dad-11d1-80b4-00c04fd430c4 1 1\r\na\r\n".data ++ ['X'])
      = .ok ({ success := true, result := ['a'] }, ['X']) := by
  have h := trailing_bytes_amended 0 [] [] [] ['X']
  exact ⟨h.1 (by decide), h.2.1⟩

/-- C5 counterexample: the `payload-size`/`payload` pair counts as two
keys toward the declared key-count, not one.  With key-count 2, the pair
alone satisfies the whole count: the following `ttr 5` line — which
under the claim would be required as the second key — is left unread and
the job's ttr stays 0; with key-count 3 the record `ttr` + pair is fully
consumed, though it holds only two spec-counted keys. -/
theorem payload_pair_counts_counterexample :
    parseInspectedJob ("6ba7b810-9dad-11d1-80b4-00c04fd430c4 2\r\npayload-size 1\r\npayload a\r\nttr 5\r\n".data)
      = .ok ({ id := "6ba7b810-9dad-11d1-80b4-00c04fd430c4", payload := ['a'] },
             "ttr 5\r\n".data) ∧
    parseInspectedJob ("6ba7b810-9dad-11d1-80b4-00c04fd430c4 3\r\nttr 5\r\npayload-size 1\r\npayload a\r\n".data)
      = .ok ({ id := "6ba7b810-9dad-11d1-80b4-00c04fd430c4", ttr := 5,
               payload := ['a'] }, []) := by
  refine ⟨by decide, by decide⟩

/-- C5 amended: the `payload-size`/`payload` pair consumes two logical
lines' worth of input and counts as two keys toward the declared
key-count (the loop index advances an extra step for the payload line);
a pair beginning on the final counted key is nevertheless accepted and
ends the record. -/
theorem payload_pair_counts_two (m : Nat) (j : InspectedJob) (rest : List Char) :
    parseKeys (m + 2) j ("payload-size 1\r\npayload a\r\n".data ++ rest)
      = parseKeys m { j with payload := ['a'] } rest ∧
    parseKeys 1 j ("payload-size 1\r\npayload a\r\n".data ++ rest)
      = .ok ({ j with payload := ['a'] }, rest) := by
  refine ⟨rfl, rfl⟩

/-- C6: inside the key/value loop of an inspected-job record, a key line
whose key is `payload` — at any remaining budget, over any job state,
with any space-free value — fails with the specific ordering-violation
error `ErrPayloadMustFollowSize`, not the generic malformed error; shown
also at the whole-record level on a concrete record. -/
theorem payload_requires_size (n : Nat) (j : InspectedJob) (v rest : List Char)
    (hsp : ' ' ∉ v) (hnl : '\n' ∉ v) :
    parseKeys (n + 1) j (("payload".data ++ (' ' :: v)) ++ ('\r' :: '\n' :: rest))
      = .error .payloadMustFollowSize ∧
    parseInspectedJob ("6ba7b810-9dad-11d1-80b4-00c04fd430c4 1\r\npayload x\r\n".data)
      = .error .payloadMustFollowSize := by
  refine ⟨?_, by decide⟩
  have hline : '\n' ∉ ("payload".data ++ (' ' :: v)) := by
    simp [hnl]
  have hrd := readLine_frame ("payload".data ++ (' ' :: v)) rest hline
  have hs : splitChar ' ' ("payload".data ++ (' ' :: v)) = ["payload".data, v] := by
    rw [splitChar_append ' ' _ _ (by decide),
      splitChar_no_sep ' ' v (not_mem_imp_ne hsp)]
  rw [parseKeys.eq_2, hrd]
  have hk : handleKeyLine j "payload".data v rest = .fail .payloadMustFollowSize := by
    simp [handleKeyLine]
  simp only [hs, hk]

/-- Witness for C6 at budget 1, the default job, and the value `x`. -/
theorem payload_requires_size_witness :
    parseKeys 1 {} (("payload".data ++ (' ' :: ['x'])) ++ ('\r' :: '\n' :: []))
      = .error .payloadMustFollowSize :=
  (payload_requires_size 0 {} ['x'] [] (by decide) (by decide)).1

/-- C9: in `errorFromLine`, an empty code token (nothing between the
sign byte and the first space, or a bare sign) is the generic malformed
error; a space followed by an empty text token is the generic malformed
error; otherwise the server's code and free text are preserved in the
`ResponseError`; and decoding `-TIMED-OUT` as either acknowledgement
shape yields the server error with code `TIMED-OUT` and empty text. -/
theorem error_line_grammar :
    (∀ t : List Char, (errorFromLine ('-' :: ' ' :: t)).1 = DecodeErr.malformed) ∧
    (errorFromLine ['-']).1 = DecodeErr.malformed ∧
    (∀ code : List Char, code ≠ [] → ' ' ∉ code →
      (errorFromLine (('-' :: code) ++ [' '])).1 = DecodeErr.malformed) ∧
    (∀ code text : List Char, code ≠ [] → ' ' ∉ code → text ≠ [] →
      errorFromLine (('-' :: code) ++ (' ' :: text))
        = (DecodeErr.responseError (String.mk code) (String.mk text), true)) ∧
    (∀ code : List Char, code ≠ [] → ' ' ∉ code →
      errorFromLine ('-' :: code)
        = (DecodeErr.responseError (String.mk code) "", true)) ∧
    parseOk "-TIMED-OUT\r\n".data
      = .error (DecodeErr.responseError "TIMED-OUT" "") ∧
    parseOkWithReply "-TIMED-OUT\r\n".data
      = .error (DecodeErr.responseError "TIMED-OUT" "") := by
  refine ⟨?_, rfl, ?_, ?_, ?_, rfl, rfl⟩
  · intro t
    simp [errorFromLine, splitFirst]
  · intro code hne hsp
    have hs : splitFirst ' ' (('-' :: code) ++ (' ' :: ([] : List Char)))
        = ['-' :: code, []] := by
      refine splitFirst_append ' ' ('-' :: code) [] ?_
      intro c hc
      rcases List.mem_cons.mp hc with h | h
      · simp [h]
      · exact not_mem_imp_ne hsp c h
    have hlen : ¬('-' :: code).length ≤ 1 := by
      have := List.length_pos.mpr hne
      simp only [List.length_cons]
      omega
    simp only [List.cons_append] at hs
    simp [errorFromLine, hs, hlen]
  · intro code text hne hsp hte
    have hs : splitFirst ' ' (('-' :: code) ++ (' ' :: text))
        = ['-' :: code, text] := by
      refine splitFirst_append ' ' ('-' :: code) text ?_
      intro c hc
      rcases List.mem_cons.mp hc with h | h
      · simp [h]
      · exact not_mem_imp_ne hsp c h
    have hlen : ¬('-' :: code).length ≤ 1 := by
      have := List.length_pos.mpr hne
      simp only [List.length_cons]
      omega
    simp only [List.cons_append] at hs
    simp [errorFromLine, hs, hlen, hte, hne]
  · intro code hne hsp
    have hs : splitFirst ' ' ('-' :: code) = ['-' :: code] := by
      refine splitFirst_no_sep ' ' ('-' :: code) ?_
      intro c hc
      rcases List.mem_cons.mp hc with h | h
      · simp [h]
      · exact not_mem_imp_ne hsp c h
    have hlen : ¬('-' :: code).length ≤ 1 := by
      have := List.length_pos.mpr hne
      simp only [List.length_cons]
      omega
    simp [errorFromLine, hs, hlen, hne]

/-- Witness for C9: each quantified part at a concrete line. -/
theorem error_line_grammar_witness :
    (errorFromLine ['-', ' ', 'x']).1 = DecodeErr.malformed ∧
    (errorFromLine (('-' :: ['C']) ++ [' '])).1 = DecodeErr.malformed ∧
    errorFromLine (('-' :: ['C']) ++ (' ' :: ['x']))
      = (DecodeErr.responseError (String.mk ['C']) (String.mk ['x']), true) ∧
    errorFromLine ('-' :: "TIMED-OUT".data)
      = (DecodeErr.responseError (String.mk "TIMED-OUT".data) "", true) := by
  refine ⟨error_line_grammar.1 ['x'],
    error_line_grammar.2.2.1 ['C'] (by decide) (by decide),
    error_line_grammar.2.2.2.1 ['C'] ['x'] (by decide) (by decide) (by decide),
    error_line_grammar.2.2.2.2.1 "TIMED-OUT".data (by decide) (by decide)⟩

end Workq
